import Mathlib

/-!
Shallow embedding of the Hoge-Meme-Team IPFS gallery application
(src/types.ts with the bundled ipfsService, src/services/geminiService.ts,
src/App.tsx), together with theorems settling the specification claims.

JavaScript strings are modelled as Lean `String`; JS `Set` as `Finset String`;
`undefined`/`null`-able values as `Option`; numeric byte counts as `Nat`
(content lengths are assumed below 2^53, so every JS number involved is an
exactly-representable integer and division by a power of two is exact).
Asynchronous handlers are modelled as pure state transformers parameterised
by the outcomes of their external calls (fetch results, service responses).
-/

namespace HogeMeme

/-- The `IPFSImage` record of src/types.ts.  Optional TS fields become
`Option`; `analyzing?` is a boolean that is falsy when absent, so it is
modelled as a plain `Bool` defaulting to `false`. -/
structure IPFSImage where
  id : String
  url : String
  filename : String
  type : String
  aiTags : Option (List String) := none
  analyzing : Bool := false
  dimensions : Option String := none
  fileSize : Option String := none
  sizeBytes : Option Nat := none
deriving Repr, DecidableEq

/-- The `AppState` enum of src/types.ts. -/
inductive AppState where
  | IDLE
  | FETCHING
  | READY
  | ERROR
deriving Repr, DecidableEq

/-! ## Directory Source (`fetchIPFSImages`, ipfsService) -/

/-- `GATEWAY_BASE` constant of ipfsService. -/
def GATEWAY_BASE : String := "https://ipfs.io"

/-- JS `s.split(sep)[0]` for a one-character separator: the prefix of `s`
before the first occurrence of `sep` (all of `s` when `sep` is absent). -/
def jsSplitHead (sep : Char) (s : String) : String :=
  ⟨s.data.takeWhile fun c => c ≠ sep⟩

/-- JS `s.split(sep).pop()` for a one-character separator: the suffix of `s`
after the last occurrence of `sep` (all of `s` when `sep` is absent). -/
def jsSplitLast (sep : Char) (s : String) : String :=
  ⟨(s.data.reverse.takeWhile fun c => c ≠ sep).reverse⟩

/-- JS `s.endsWith(suffix)`. -/
def strEndsWith (s suffix : String) : Bool :=
  suffix.data.isSuffixOf s.data

/-- JS `s.startsWith(pre)`. -/
def strStartsWith (s pre : String) : Bool :=
  pre.data.isPrefixOf s.data

/-- JS `s.toLowerCase()` (the targets at hand are ASCII). -/
def lowerString (s : String) : String :=
  ⟨s.data.map Char.toLower⟩

/-- JS `s.toUpperCase()` (the extensions at hand are ASCII). -/
def upperString (s : String) : String :=
  ⟨s.data.map Char.toUpper⟩

/-- JS `href.split("?")[0]`: the link target with its query string stripped. -/
def stripQuery (href : String) : String :=
  jsSplitHead '?' href

/-- The allow-list test `/\.(jpe?g|png|gif|webp)$/i.test(href)`: the target
ends, case-insensitively, in a dot followed by one of the image extensions. -/
def isImageHref (href : String) : Bool :=
  let l := lowerString href
  strEndsWith l ".jpg" || strEndsWith l ".jpeg" || strEndsWith l ".png" ||
    strEndsWith l ".gif" || strEndsWith l ".webp"

/-- Construction of one asset record from an accepted normalized target,
mirroring the body of the `links.forEach` in `fetchIPFSImages`:
absolute targets kept as-is, relative ones joined to the gateway base;
`filename` is the last path segment (generic fallback); `type` is the
extension, uppercased (generic fallback). -/
def mkImage (imgId href : String) : IPFSImage :=
  let fullUrl := if strStartsWith href "http" then href else GATEWAY_BASE ++ href
  let lastSeg := jsSplitLast '/' href
  let filename := if lastSeg = "" then "image" else lastSeg
  let ext := jsSplitLast '.' filename
  { id := imgId
    url := fullUrl
    filename := filename
    type := if ext = "" then "IMG" else upperString ext }

/-- The scan over the anchor list in `fetchIPFSImages`.  `links` holds the
`getAttribute("href")` results (`none` for a missing attribute), `added` is
the seen-set of normalized targets, `ctr` indexes the id generator `idGen`
(the successive `Math.random().toString(36).substring(7)` draws). -/
def fetchLoop (idGen : Nat → String) :
    List (Option String) → List String → Nat → List IPFSImage
  | [], _, _ => []
  | link :: rest, added, ctr =>
    match link with
    | none => fetchLoop idGen rest added ctr
    | some raw =>
      let href := stripQuery raw
      if href ≠ "" ∧ isImageHref href ∧ href ∉ added then
        mkImage (idGen ctr) href :: fetchLoop idGen rest (href :: added) (ctr + 1)
      else
        fetchLoop idGen rest added ctr

/-- `fetchIPFSImages` of ipfsService, as a function of the document's anchor
targets and of the id-generator draws. -/
def fetchIPFSImages (idGen : Nat → String) (links : List (Option String)) :
    List IPFSImage :=
  fetchLoop idGen links [] 0

/-! Spec-side definitions for the discovery refinement claim (C4), written
from the spec's words: the normalized image targets in document order, the
first-occurrence de-duplication, and the assembly of assets in that order. -/

/-- Modelled from the spec: the normalized (query-stripped) link targets
whose extension is in the image allow-list, in document order, non-image
and absent targets excluded. -/
def specImageTargets : List (Option String) → List String
  | [] => []
  | none :: rest => specImageTargets rest
  | some raw :: rest =>
    let href := stripQuery raw
    if href ≠ "" ∧ isImageHref href then href :: specImageTargets rest
    else specImageTargets rest

/-- Modelled from the spec: keep each element's first occurrence, dropping
later duplicates, given a set `seen` of already-kept elements. -/
def specFirstOccurAux : List String → List String → List String
  | [], _ => []
  | x :: rest, seen =>
    if x ∈ seen then specFirstOccurAux rest seen
    else x :: specFirstOccurAux rest (x :: seen)

/-- Modelled from the spec: first-occurrence de-duplication of a list. -/
def specFirstOccur (l : List String) : List String :=
  specFirstOccurAux l []

/-- Modelled from the spec: one asset per kept normalized target, in order,
ids drawn sequentially from the generator starting at `ctr`. -/
def specBuildAssets (idGen : Nat → String) : Nat → List String → List IPFSImage
  | _, [] => []
  | ctr, href :: rest => mkImage (idGen ctr) href :: specBuildAssets idGen (ctr + 1) rest

/-! ## Metadata Enricher (`getFileSize`, ipfsService) -/

/-- Result record of `getFileSize`. -/
structure SizeInfo where
  formatted : String
  bytes : Nat
deriving Repr, DecidableEq

/-- JS `(b / d).toFixed(1)` for a nonnegative integer `b` and a positive even
power-of-two denominator `d`: the quotient is exactly representable, and
`toFixed` picks the integer `n` minimising `|n / 10 - b / d|`, ties toward
the larger `n`, i.e. `n = ⌊(10 b + d / 2) / d⌋`. -/
def jsToFixed1 (b d : Nat) : String :=
  let n := (10 * b + d / 2) / d
  toString (n / 10) ++ "." ++ toString (n % 10)

/-- The formatting branch of `getFileSize` on a parsed byte count. -/
def formatBytes (bytes : Nat) : String :=
  if bytes < 1024 then toString bytes ++ " B"
  else if bytes < 1024 * 1024 then jsToFixed1 bytes 1024 ++ " KB"
  else jsToFixed1 bytes (1024 * 1024) ++ " MB"

/-- Outcome of the metadata-only request issued by `getFileSize`: the request
may throw, or yield a response whose content-length header is absent/empty
(`none`) or declares a byte count. -/
inductive ProbeResponse where
  | transportError
  | header (contentLength : Option Nat)
deriving Repr, DecidableEq

/-- `getFileSize` of ipfsService: total over every probe outcome, returning
the `Unknown`/`0` sentinel on a thrown request or a missing header. -/
def getFileSize : ProbeResponse → SizeInfo
  | .transportError => ⟨"Unknown", 0⟩
  | .header none => ⟨"Unknown", 0⟩
  | .header (some b) => ⟨formatBytes b, b⟩

/-! ## Analysis Service (`analyzeImage`, geminiService) -/

/-- JS `s.includes(pat)`: `pat` occurs as a contiguous substring of `s`. -/
def containsSub (s pat : String) : Bool :=
  (List.range (s.data.length + 1)).any fun i => pat.data.isPrefixOf (s.data.drop i)

/-- The error substrings that `analyzeImage`'s catch block recognises as
authentication failures. -/
def authErrorSubstrings : List String :=
  ["API_KEY_INVALID", "invalid API key", "API key must be set", "401", "403",
   "Requested entity was not found"]

/-- The catch block's authentication test: the caught message contains one of
the known auth-failure substrings. -/
def isAuthFailureMessage (msg : String) : Bool :=
  authErrorSubstrings.any fun pat => containsSub msg pat

/-- The credential chain
`localStorage.getItem('USER_GEMINI_API_KEY') || process.env.API_KEY ||
process.env.GEMINI_API_KEY || ''`.  JS `||` skips `null`/`undefined` and the
empty string alike, so an absent source is modelled as `""`. -/
def resolveApiKey (userKey envApiKey envGeminiKey : String) : String :=
  if userKey ≠ "" then userKey
  else if envApiKey ≠ "" then envApiKey
  else if envGeminiKey ≠ "" then envGeminiKey
  else ""

/-- Behaviour of the external world during one `analyzeImage` call once a
credential was found: the image fetch (or its blob read) may throw, the
model call (or the `JSON.parse` of its text) may throw, or the model call
returns with a text that is either empty (`none`) or parses to a list of
tag strings. -/
inductive ServiceBehavior where
  | fetchError (msg : String)
  | genError (msg : String)
  | response (text : Option (List String))
deriving Repr, DecidableEq

/-- The catch block of `analyzeImage`: a caught `AUTH_ERROR` is re-thrown,
a message containing a known auth substring is converted to a thrown
`AUTH_ERROR`, and any other failure yields the `["Analysis Failed"]`
sentinel return value. -/
def classifyCaught (msg : String) : Except String (List String) :=
  if msg = "AUTH_ERROR" then .error "AUTH_ERROR"
  else if isAuthFailureMessage msg then .error "AUTH_ERROR"
  else .ok ["Analysis Failed"]

/-- Result of one `analyzeImage` call: the returned tags or the thrown
message, the credential handed to the client (if one was constructed), and
the number of outbound network calls issued. -/
structure AnalyzeRun where
  result : Except String (List String)
  usedKey : Option String
  networkCalls : Nat
deriving Repr

/-- `analyzeImage` of geminiService, as a function of the three credential
sources and the external behaviour.  An empty resolved credential throws
`AUTH_ERROR` before any network call; otherwise the image fetch counts as
one call and the model call as a second. -/
def analyzeImage (userKey envApiKey envGeminiKey : String)
    (svc : ServiceBehavior) : AnalyzeRun :=
  let apiKey := resolveApiKey userKey envApiKey envGeminiKey
  if apiKey = "" then ⟨.error "AUTH_ERROR", none, 0⟩
  else
    match svc with
    | .fetchError msg => ⟨classifyCaught msg, some apiKey, 1⟩
    | .genError msg => ⟨classifyCaught msg, some apiKey, 2⟩
    | .response none => ⟨.ok [], some apiKey, 2⟩
    | .response (some tags) => ⟨.ok tags, some apiKey, 2⟩

/-! ## Gallery State and handlers (src/App.tsx) -/

/-- The App component state relevant to the claims. -/
structure AppSt where
  images : List IPFSImage
  status : AppState := .IDLE
  errorMsg : Option String := none
  selectedIds : Finset String := ∅
  searchQuery : String := ""
  isBulkDownloading : Bool := false
  downloadProgress : Nat × Nat := (0, 0)
  processingId : Option String := none

/-- The success path of `loadImages`: the `images` collection is replaced
wholesale by the discovery result and the status becomes `READY`; the
post-fetch size-probe fan-out is modelled separately (`applySizeResult`).
No other field is written. -/
def loadImagesSuccess (st : AppSt) (fetched : List IPFSImage) : AppSt :=
  { st with status := .READY, errorMsg := none, images := fetched }

/-- One size-probe completion inside `loadImages`: the keyed write
`setImages(prev => prev.map(p => p.id === img.id ? { ...p, fileSize, sizeBytes } : p))`,
with the completion carried as a `(probed id, size data)` pair. -/
def applySizeResult (images : List IPFSImage) (c : String × SizeInfo) :
    List IPFSImage :=
  images.map fun p =>
    if p.id = c.1 then { p with fileSize := some c.2.formatted, sizeBytes := some c.2.bytes }
    else p

/-- `selectAll` of App.tsx: a no-op during a bulk download; otherwise clears
the selection when its size equals the length of the full `images`
collection, and selects every discovered asset's id otherwise. -/
def selectAll (st : AppSt) : AppSt :=
  if st.isBulkDownloading then st
  else if st.selectedIds.card = st.images.length then { st with selectedIds := ∅ }
  else { st with selectedIds := (st.images.map IPFSImage.id).toFinset }

/-- `handleAnalyze` of App.tsx for asset `targetId`, parameterised by the
outcome `run` of the awaited `analyzeImage` call: mark the asset analyzing,
look the target up in the (pre-update) collection, then on success write the
tags and clear the flag, and on a thrown error clear the flag and raise the
API-key modal exactly when the message is `AUTH_ERROR`.  Returns the new
collection and the new modal flag. -/
def handleAnalyze (images : List IPFSImage) (targetId : String)
    (run : Except String (List String)) (modal : Bool) :
    List IPFSImage × Bool :=
  let images1 := images.map fun img =>
    if img.id = targetId then { img with analyzing := true } else img
  match images.find? (fun img => img.id = targetId) with
  | none => (images1, modal)
  | some _ =>
    match run with
    | .ok tags =>
      (images1.map fun img =>
        if img.id = targetId then { img with aiTags := some tags, analyzing := false }
        else img, modal)
    | .error msg =>
      let images2 := images1.map fun img =>
        if img.id = targetId then { img with analyzing := false } else img
      if msg = "AUTH_ERROR" then (images2, true) else (images2, modal)

/-! ## Export Orchestrator (`handleBulkDownload`, src/App.tsx) -/

/-- Outcome of the `await fetch(img.url, ...)` for one asset during export:
an ok response, a non-ok response (which triggers the
`Failed to download ...` throw), or a rejection of the fetch / blob read
carrying its own message. -/
inductive FetchOutcome where
  | success
  | httpError
  | thrown (msg : String)
deriving Repr, DecidableEq

/-- Observable state writes of the export loop, in program order. -/
inductive ExportEv where
  | markProcessing (id : Option String)
  | progress (current total : Nat)
  | fetchDone (id : String) (ok : Bool)
  | zipEntry (filename : String)
deriving Repr, DecidableEq

/-- The `for (const img of selectedImages)` loop of `handleBulkDownload`:
per asset, set the processing marker, report progress `(count+1, total)`,
resolve the retrieval; a non-ok response throws the named error and a
rejection propagates its own message, in both cases aborting the loop;
on success the blob is added to the archive and the scan continues. -/
def exportLoop (fetchRes : IPFSImage → FetchOutcome) (total : Nat) :
    List IPFSImage → Nat → List ExportEv × Option String
  | [], _ => ([], none)
  | img :: rest, count =>
    let pre := [ExportEv.markProcessing (some img.id),
                ExportEv.progress (count + 1) total]
    match fetchRes img with
    | .success =>
      let tail := exportLoop fetchRes total rest (count + 1)
      (pre ++ ExportEv.fetchDone img.id true :: ExportEv.zipEntry img.filename :: tail.1,
       tail.2)
    | .httpError =>
      (pre ++ [ExportEv.fetchDone img.id false],
       some ("Failed to download " ++ img.filename))
    | .thrown msg =>
      (pre ++ [ExportEv.fetchDone img.id false], some msg)

/-- Result of one `handleBulkDownload` invocation: the final component
state, the trace of observable writes, the archive's entry names
(`none` when no archive was generated), and the alert raised on failure. -/
structure ExportOutcome where
  final : AppSt
  events : List ExportEv
  archive : Option (List String)
  alertMsg : Option String

/-- `handleBulkDownload` of App.tsx.  Guard: a no-op on an empty selection or
while a job is already active.  Otherwise it snapshots the selected assets
in display order, runs the sequential loop, and on success clears the
processing marker, generates the archive and empties the selection, while
on a thrown failure it alerts with the error's message; the `finally` block
clears the bulk flag, the processing marker and the progress pair on every
exit path. -/
def handleBulkDownload (st : AppSt) (fetchRes : IPFSImage → FetchOutcome) :
    ExportOutcome :=
  if st.selectedIds = ∅ ∨ st.isBulkDownloading then ⟨st, [], none, none⟩
  else
    let total := st.selectedIds.card
    let sel := st.images.filter fun img => img.id ∈ st.selectedIds
    let run := exportLoop fetchRes total sel 0
    match run.2 with
    | none =>
      { final := { st with selectedIds := ∅, isBulkDownloading := false,
                           processingId := none, downloadProgress := (0, 0) }
        events := ExportEv.progress 0 total :: run.1 ++
          [ExportEv.markProcessing none, ExportEv.markProcessing none,
           ExportEv.progress 0 0]
        archive := some (sel.map IPFSImage.filename)
        alertMsg := none }
    | some msg =>
      { final := { st with isBulkDownloading := false,
                           processingId := none, downloadProgress := (0, 0) }
        events := ExportEv.progress 0 total :: run.1 ++
          [ExportEv.markProcessing none, ExportEv.progress 0 0]
        archive := none
        alertMsg := some ("Download failed: " ++ msg) }

/-- Projection of the progress reports out of an export trace. -/
def progressOf : ExportEv → Option (Nat × Nat)
  | .progress c t => some (c, t)
  | _ => none

/-- Projection of the processing-marker writes out of an export trace. -/
def markerOf : ExportEv → Option (Option String)
  | .markProcessing i => some i
  | _ => none

/-- Projection of the resolved retrievals out of an export trace. -/
def fetchOf : ExportEv → Option (String × Bool)
  | .fetchDone i ok => some (i, ok)
  | _ => none

/-- The event block emitted by the export loop for a run of assets whose
retrievals all succeed, starting at loop counter `count`. -/
def successEvents (total : Nat) : Nat → List IPFSImage → List ExportEv
  | _, [] => []
  | count, img :: rest =>
    ExportEv.markProcessing (some img.id) :: ExportEv.progress (count + 1) total ::
      ExportEv.fetchDone img.id true :: ExportEv.zipEntry img.filename ::
      successEvents total (count + 1) rest

/-- Message of the error thrown by the export loop for a failed retrieval:
the named `Failed to download` error for a non-ok response, the rejection's
own message otherwise. -/
def failureMsg (o : FetchOutcome) (img : IPFSImage) : String :=
  match o with
  | .success => ""
  | .httpError => "Failed to download " ++ img.filename
  | .thrown msg => msg

/-- A concrete asset record used by witnesses and counterexamples. -/
def sampleAsset (i : String) : IPFSImage :=
  { id := i
    url := "https://ipfs.io/" ++ i ++ ".png"
    filename := i ++ ".png"
    type := "PNG" }

/-! ## Theorems -/

/-- C7: the size probe is total and never fails outward: a transport error or
a missing content-length header yields exactly the `{"Unknown", 0}` sentinel;
otherwise a declared length `b` yields `sizeBytes = b` with binary-threshold
formatting — bytes below 1024 verbatim with a `" B"` suffix, kibibytes to one
decimal below `1024²` (the printed decimal `k/10` differs from `10·b/1024` by
at most half a unit), mebibytes to one decimal above, with the boundary
examples `0 B`, `1023 B`, `1.0 KB`, `1.0 MB`. -/
theorem getFileSize_total_and_boundaries :
    getFileSize .transportError = ⟨"Unknown", 0⟩ ∧
    getFileSize (.header none) = ⟨"Unknown", 0⟩ ∧
    (∀ b : Nat, (getFileSize (.header (some b))).bytes = b) ∧
    (∀ b : Nat, b < 1024 →
      (getFileSize (.header (some b))).formatted = toString b ++ " B") ∧
    (∀ b : Nat, 1024 ≤ b → b < 1024 * 1024 → ∃ k : Nat,
      (getFileSize (.header (some b))).formatted =
        toString (k / 10) ++ "." ++ toString (k % 10) ++ " KB" ∧
      (k : ℤ) * 1024 - 10 * b ≤ 512 ∧ 10 * (b : ℤ) - k * 1024 < 512) ∧
    (∀ b : Nat, 1024 * 1024 ≤ b → ∃ k : Nat,
      (getFileSize (.header (some b))).formatted =
        toString (k / 10) ++ "." ++ toString (k % 10) ++ " MB" ∧
      (k : ℤ) * 1048576 - 10 * b ≤ 524288 ∧ 10 * (b : ℤ) - k * 1048576 < 524288) ∧
    (getFileSize (.header (some 0))).formatted = "0 B" ∧
    (getFileSize (.header (some 1023))).formatted = "1023 B" ∧
    (getFileSize (.header (some 1024))).formatted = "1.0 KB" ∧
    (getFileSize (.header (some 1048576))).formatted = "1.0 MB" := by
  refine ⟨rfl, rfl, fun b => rfl, ?_, ?_, ?_, rfl, rfl, rfl, rfl⟩
  · intro b hb
    simp only [getFileSize, formatBytes, if_pos hb]
  · intro b hb1 hb2
    refine ⟨(10 * b + 512) / 1024, ?_, ?_, ?_⟩
    · simp only [getFileSize, formatBytes, jsToFixed1]
      rw [if_neg (by omega), if_pos (by omega)]
    · omega
    · omega
  · intro b hb
    refine ⟨(10 * b + 524288) / 1048576, ?_, ?_, ?_⟩
    · simp only [getFileSize, formatBytes, jsToFixed1]
      rw [if_neg (by omega), if_neg (by omega)]
    · omega
    · omega

/-- Witness for C7 at concrete inputs: 512 bytes print verbatim, and the
probe reports the declared length for 2048 bytes. -/
theorem getFileSize_total_and_boundaries_witness :
    (getFileSize (.header (some 512))).formatted = toString 512 ++ " B" ∧
    (getFileSize (.header (some 2048))).bytes = 2048 ∧
    (∃ k : Nat, (getFileSize (.header (some 2048))).formatted =
        toString (k / 10) ++ "." ++ toString (k % 10) ++ " KB" ∧
      (k : ℤ) * 1024 - 10 * 2048 ≤ 512 ∧ 10 * (2048 : ℤ) - k * 1024 < 512) ∧
    (∃ k : Nat, (getFileSize (.header (some 2097152))).formatted =
        toString (k / 10) ++ "." ++ toString (k % 10) ++ " MB" ∧
      (k : ℤ) * 1048576 - 10 * 2097152 ≤ 524288 ∧
      10 * (2097152 : ℤ) - k * 1048576 < 524288) :=
  ⟨getFileSize_total_and_boundaries.2.2.2.1 512 (by norm_num),
   getFileSize_total_and_boundaries.2.2.1 2048,
   getFileSize_total_and_boundaries.2.2.2.2.1 2048 (by norm_num) (by norm_num),
   getFileSize_total_and_boundaries.2.2.2.2.2.1 2097152 (by norm_num)⟩

/-- The credential handed to the client is the resolved one whenever the
resolution chain produced a non-empty key. -/
theorem analyzeImage_usedKey (u a b : String) (svc : ServiceBehavior) :
    (analyzeImage u a b svc).usedKey =
      if resolveApiKey u a b = "" then none else some (resolveApiKey u a b) := by
  simp only [analyzeImage]
  split
  · simp [*]
  · cases svc with
    | fetchError m => simp [*]
    | genError m => simp [*]
    | response t => cases t <;> simp [*]

/-- C3: the credential used by `analyzeImage` is the first non-empty value of
the user-supplied override, the environment default, and the environment
fallback; with all three empty the call fails with the `AUTH_ERROR` signal
and issues zero network calls. -/
theorem analyzeImage_credential_precedence (u a b : String) (svc : ServiceBehavior) :
    (u ≠ "" → (analyzeImage u a b svc).usedKey = some u) ∧
    (u = "" → a ≠ "" → (analyzeImage u a b svc).usedKey = some a) ∧
    (u = "" → a = "" → b ≠ "" → (analyzeImage u a b svc).usedKey = some b) ∧
    (u = "" → a = "" → b = "" →
      (analyzeImage u a b svc).result = .error "AUTH_ERROR" ∧
      (analyzeImage u a b svc).networkCalls = 0) := by
  refine ⟨?_, ?_, ?_, ?_⟩
  · intro hu
    rw [analyzeImage_usedKey]
    have hres : resolveApiKey u a b = u := by simp [resolveApiKey, hu]
    rw [hres, if_neg hu]
  · intro hu ha
    rw [analyzeImage_usedKey]
    have hres : resolveApiKey u a b = a := by simp [resolveApiKey, hu, ha]
    rw [hres, if_neg ha]
  · intro hu ha hb
    rw [analyzeImage_usedKey]
    have hres : resolveApiKey u a b = b := by simp [resolveApiKey, hu, ha, hb]
    rw [hres, if_neg hb]
  · intro hu ha hb
    simp [analyzeImage, resolveApiKey, hu, ha, hb]

/-- Witness for C3: the override wins when present, the fallback is used when
it is the only source, and the all-empty configuration fails with zero
network calls. -/
theorem analyzeImage_credential_precedence_witness :
    (analyzeImage "userKey" "envA" "envB" (.response (some ["t"]))).usedKey = some "userKey" ∧
    (analyzeImage "" "" "fallback" (.response (some ["t"]))).usedKey = some "fallback" ∧
    (analyzeImage "" "" "" (.response (some ["t"]))).result = .error "AUTH_ERROR" ∧
    (analyzeImage "" "" "" (.response (some ["t"]))).networkCalls = 0 :=
  ⟨(analyzeImage_credential_precedence "userKey" "envA" "envB" _).1 (by decide),
   (analyzeImage_credential_precedence "" "" "fallback" _).2.2.1 rfl rfl (by decide),
   (analyzeImage_credential_precedence "" "" "" _).2.2.2 rfl rfl rfl |>.1,
   (analyzeImage_credential_precedence "" "" "" _).2.2.2 rfl rfl rfl |>.2⟩

/-- C6: `selectAll` toggles over the full discovered collection: with none of
the N assets selected it selects all N, with all N selected it deselects all
N, with a proper non-empty subset selected it selects all N, and its result
does not depend on the filter text. -/
theorem selectAll_toggles_full_collection (st : AppSt)
    (hbulk : st.isBulkDownloading = false)
    (hsub : st.selectedIds ⊆ (st.images.map IPFSImage.id).toFinset)
    (hnodup : (st.images.map IPFSImage.id).Nodup) :
    (st.selectedIds = ∅ →
      (selectAll st).selectedIds = (st.images.map IPFSImage.id).toFinset) ∧
    (st.selectedIds = (st.images.map IPFSImage.id).toFinset →
      (selectAll st).selectedIds = ∅) ∧
    (st.selectedIds ≠ ∅ → st.selectedIds ≠ (st.images.map IPFSImage.id).toFinset →
      (selectAll st).selectedIds = (st.images.map IPFSImage.id).toFinset) ∧
    (∀ q, (selectAll { st with searchQuery := q }).selectedIds =
      (selectAll st).selectedIds) := by
  have hcard : (st.images.map IPFSImage.id).toFinset.card = st.images.length := by
    rw [List.toFinset_card_of_nodup hnodup, List.length_map]
  refine ⟨?_, ?_, ?_, ?_⟩
  · intro hempty
    by_cases hc : st.selectedIds.card = st.images.length
    · have hlen : st.images.length = 0 := by
        rw [← hc, hempty, Finset.card_empty]
      have himgs : st.images = [] := List.length_eq_zero.mp hlen
      simp [selectAll, hbulk, hc, himgs]
    · simp [selectAll, hbulk, hc]
  · intro hfull
    have hc : st.selectedIds.card = st.images.length := by rw [hfull, hcard]
    simp [selectAll, hbulk, hc]
  · intro hne hnfull
    have hlt : st.selectedIds.card < (st.images.map IPFSImage.id).toFinset.card := by
      rcases lt_or_eq_of_le (Finset.card_le_card hsub) with h | h
    -- a subset of equal cardinality would be the whole universe
      · exact h
      · exact absurd (Finset.eq_of_subset_of_card_le hsub (le_of_eq h.symm)) hnfull
    have hc : ¬ st.selectedIds.card = st.images.length := by
      rw [← hcard]; exact Nat.ne_of_lt hlt
    simp [selectAll, hbulk, hc]
  · intro q
    by_cases h2 : st.selectedIds.card = st.images.length <;>
      simp [selectAll, hbulk, h2]

/-- Witness for C6: with 1 of 2 assets selected, `selectAll` selects both. -/
theorem selectAll_toggles_full_collection_witness :
    (selectAll { images := [sampleAsset "a", sampleAsset "b"],
                 selectedIds := {"a"} }).selectedIds =
      (([sampleAsset "a", sampleAsset "b"].map IPFSImage.id).toFinset) :=
  (selectAll_toggles_full_collection
      { images := [sampleAsset "a", sampleAsset "b"], selectedIds := {"a"} }
      rfl (by decide) (by decide)).2.2.1 (by decide) (by decide)

/-- C10: re-invoking discovery through `loadImages` replaces the whole
`images` collection with the freshly discovered assets and leaves both the
selection set and the filter text untouched, so the selection may afterwards
hold ids that match no asset in the new collection — as the concrete
refresh in the second conjunct shows. -/
theorem loadImages_preserves_selection_and_filter :
    (∀ (st : AppSt) (idGen : Nat → String) (links : List (Option String)),
      (loadImagesSuccess st (fetchIPFSImages idGen links)).images =
        fetchIPFSImages idGen links ∧
      (loadImagesSuccess st (fetchIPFSImages idGen links)).selectedIds =
        st.selectedIds ∧
      (loadImagesSuccess st (fetchIPFSImages idGen links)).searchQuery =
        st.searchQuery) ∧
    ((loadImagesSuccess { images := [sampleAsset "old"], selectedIds := {"old"} }
        (fetchIPFSImages (fun _ => "new") [some "/p.png"])).selectedIds = {"old"} ∧
     "old" ∉ ((loadImagesSuccess { images := [sampleAsset "old"], selectedIds := {"old"} }
        (fetchIPFSImages (fun _ => "new") [some "/p.png"])).images.map IPFSImage.id)) := by
  refine ⟨fun st idGen links => ⟨rfl, rfl, rfl⟩, rfl, ?_⟩
  decide

/-- The discovery scan refines the spec pipeline: filter and normalize the
targets, keep first occurrences, then assemble assets with sequential ids,
for any seen-set accumulator and id counter. -/
theorem fetchLoop_eq_spec (idGen : Nat → String) (links : List (Option String)) :
    ∀ (added : List String) (ctr : Nat),
      fetchLoop idGen links added ctr =
        specBuildAssets idGen ctr (specFirstOccurAux (specImageTargets links) added) := by
  induction links with
  | nil => intro added ctr; rfl
  | cons link rest ih =>
    intro added ctr
    cases link with
    | none => simpa [fetchLoop, specImageTargets] using ih added ctr
    | some raw =>
      simp only [fetchLoop, specImageTargets]
      by_cases himg : stripQuery raw ≠ "" ∧ isImageHref (stripQuery raw) = true
      · rw [if_pos himg]
        by_cases hmem : stripQuery raw ∈ added
        · rw [if_neg (by tauto)]
          simp only [specFirstOccurAux, if_pos hmem]
          exact ih added ctr
        · rw [if_pos ⟨himg.1, himg.2, hmem⟩]
          simp only [specFirstOccurAux, if_neg hmem, specBuildAssets]
          rw [ih]
      · rw [if_neg himg, if_neg (by tauto)]
        exact ih added ctr

/-- Membership in the first-occurrence de-duplication: exactly the elements
of the list that are not in the seen-set. -/
theorem mem_specFirstOccurAux (l : List String) :
    ∀ (seen : List String) (x : String),
      x ∈ specFirstOccurAux l seen ↔ x ∈ l ∧ x ∉ seen := by
  induction l with
  | nil => intro seen x; simp [specFirstOccurAux]
  | cons y rest ih =>
    intro seen x
    by_cases hy : y ∈ seen
    · rw [specFirstOccurAux, if_pos hy, ih]
      constructor
      · rintro ⟨h1, h2⟩
        exact ⟨List.mem_cons_of_mem _ h1, h2⟩
      · rintro ⟨h1, h2⟩
        rcases List.mem_cons.mp h1 with rfl | h1
        · exact absurd hy h2
        · exact ⟨h1, h2⟩
    · rw [specFirstOccurAux, if_neg hy]
      constructor
      · intro hx
        rcases List.mem_cons.mp hx with rfl | hx
        · exact ⟨List.mem_cons_self _ _, hy⟩
        · have h := (ih _ x).mp hx
          exact ⟨List.mem_cons_of_mem _ h.1,
            fun hseen => h.2 (List.mem_cons_of_mem _ hseen)⟩
      · rintro ⟨h1, h2⟩
        rcases List.mem_cons.mp h1 with rfl | h1
        · exact List.mem_cons_self _ _
        · by_cases hxy : x = y
          · subst hxy; exact List.mem_cons_self _ _
          · refine List.mem_cons_of_mem _ ((ih _ x).mpr ⟨h1, ?_⟩)
            simp [hxy, h2]

/-- The first-occurrence de-duplication never repeats an element. -/
theorem nodup_specFirstOccurAux (l : List String) :
    ∀ seen, (specFirstOccurAux l seen).Nodup := by
  induction l with
  | nil => intro seen; simp [specFirstOccurAux]
  | cons y rest ih =>
    intro seen
    by_cases hy : y ∈ seen
    · rw [specFirstOccurAux, if_pos hy]; exact ih seen
    · rw [specFirstOccurAux, if_neg hy]
      refine List.nodup_cons.mpr ⟨?_, ih _⟩
      intro hmem
      exact ((mem_specFirstOccurAux rest _ y).mp hmem).2 (List.mem_cons_self _ _)

/-- C4: discovery returns exactly one asset per distinct normalized
(query-stripped) target with an allow-listed image extension, in
first-occurrence document order — the scan equals the spec pipeline
(normalize and filter, de-duplicate keeping first occurrences, assemble
assets in that order), the kept key list is duplicate-free, and it retains
exactly the normalized image targets of the document. -/
theorem fetchIPFSImages_dedup_first_occurrence (idGen : Nat → String)
    (links : List (Option String)) :
    fetchIPFSImages idGen links =
      specBuildAssets idGen 0 (specFirstOccur (specImageTargets links)) ∧
    (specFirstOccur (specImageTargets links)).Nodup ∧
    (∀ t, t ∈ specFirstOccur (specImageTargets links) ↔ t ∈ specImageTargets links) := by
  refine ⟨fetchLoop_eq_spec idGen links [] 0, nodup_specFirstOccurAux _ _, fun t => ?_⟩
  simpa using mem_specFirstOccurAux (specImageTargets links) [] t

/-- The ids of the assembled assets are the id-generator draws at the
consecutive counters. -/
theorem specBuildAssets_ids (idGen : Nat → String) (hs : List String) :
    ∀ ctr, (specBuildAssets idGen ctr hs).map IPFSImage.id =
      (List.range' ctr hs.length).map idGen := by
  induction hs with
  | nil => intro ctr; rfl
  | cons h rest ih =>
    intro ctr
    simp only [specBuildAssets, List.map_cons, List.length_cons, List.range'_succ, ih]
    simp [mkImage]

/-- C9 (amended): the assets returned by discovery have pairwise-distinct
ids provided the id generator never repeats a draw; the source draws ids
from `Math.random` with no uniqueness check, so the proviso is needed
(see the collision counterexample). -/
theorem fetchIPFSImages_ids_nodup (idGen : Nat → String)
    (links : List (Option String)) (hinj : Function.Injective idGen) :
    ((fetchIPFSImages idGen links).map IPFSImage.id).Nodup := by
  rw [show fetchIPFSImages idGen links = fetchLoop idGen links [] 0 from rfl,
    fetchLoop_eq_spec idGen links [] 0, specBuildAssets_ids]
  exact List.Nodup.map hinj (List.nodup_range' _ _)

/-- Counterexample for C9 as stated: a generator that repeats a draw (as
`Math.random` may) yields two discovered assets with the same id. -/
theorem fetchIPFSImages_ids_can_collide :
    ¬ ((fetchIPFSImages (fun _ => "zzz")
        [some "/a.png", some "/b.png"]).map IPFSImage.id).Nodup := by
  decide

/-- Witness for C9 (amended) with an injective generator on a two-link
listing. -/
theorem fetchIPFSImages_ids_nodup_witness :
    ((fetchIPFSImages (fun n => String.mk (List.replicate n 'a'))
        [some "/a.png", some "/b.png"]).map IPFSImage.id).Nodup :=
  fetchIPFSImages_ids_nodup _ _ (fun x y h => by
    have h2 := congrArg (fun s => s.data.length) h
    simpa using h2)

/-- Keyed size write-backs with distinct keys commute. -/
theorem applySizeResult_comm (l : List IPFSImage) (c d : String × SizeInfo)
    (h : c.1 ≠ d.1) :
    applySizeResult (applySizeResult l c) d =
      applySizeResult (applySizeResult l d) c := by
  simp only [applySizeResult, List.map_map]
  refine List.map_congr_left fun p _ => ?_
  by_cases hc : p.id = c.1 <;> by_cases hd : p.id = d.1 <;>
    simp_all [Function.comp]

/-- C8: enrichment write-backs commute — applying the per-asset size-probe
completions in any permutation of completion order yields the same final
collection as applying them in discovery order, provided their keys are
pairwise distinct; and each completion leaves every asset whose id differs
from its key entirely unchanged. -/
theorem sizeWrites_commute (images : List IPFSImage)
    (completions completions' : List (String × SizeInfo))
    (hkeys : completions.Pairwise fun c d => c.1 ≠ d.1)
    (hperm : completions'.Perm completions) :
    completions'.foldl applySizeResult images =
      completions.foldl applySizeResult images ∧
    (∀ (l : List IPFSImage) (c : String × SizeInfo) (i : Nat)
      (h1 : i < l.length) (h2 : i < (applySizeResult l c).length),
      (l.get ⟨i, h1⟩).id ≠ c.1 →
        (applySizeResult l c).get ⟨i, h2⟩ = l.get ⟨i, h1⟩) := by
  constructor
  · refine hperm.foldl_eq' (fun x hx y hy z => ?_) images
    by_cases hxy : x = y
    · subst hxy; rfl
    · have hkey : x.1 ≠ y.1 :=
        hkeys.forall (fun c d hcd => fun e => hcd e.symm)
          (hperm.mem_iff.mp hx) (hperm.mem_iff.mp hy) hxy
      exact applySizeResult_comm z x y hkey
  · intro l c i h1 h2 hne
    simp only [applySizeResult, List.get_eq_getElem, List.getElem_map]
    rw [if_neg (by simpa using hne)]

/-- Witness for C8: two completions applied in swapped order produce the
same collection as in discovery order. -/
theorem sizeWrites_commute_witness :
    [(("b" : String), (⟨"2.0 KB", 2048⟩ : SizeInfo)), ("a", ⟨"1.0 KB", 1024⟩)].foldl
        applySizeResult [sampleAsset "a", sampleAsset "b"] =
      [(("a" : String), (⟨"1.0 KB", 1024⟩ : SizeInfo)), ("b", ⟨"2.0 KB", 2048⟩)].foldl
        applySizeResult [sampleAsset "a", sampleAsset "b"] :=
  (sizeWrites_commute [sampleAsset "a", sampleAsset "b"]
      [("a", ⟨"1.0 KB", 1024⟩), ("b", ⟨"2.0 KB", 2048⟩)]
      [("b", ⟨"2.0 KB", 2048⟩), ("a", ⟨"1.0 KB", 1024⟩)]
      (by decide) (by decide)).1

/-- The catch block of `analyzeImage` only ever throws the `AUTH_ERROR`
signal. -/
theorem classifyCaught_error_is_auth (msg m : String)
    (h : classifyCaught msg = .error m) : m = "AUTH_ERROR" := by
  simp only [classifyCaught] at h
  split at h
  · simp_all
  · split at h <;> simp_all

/-- Every error escaping `analyzeImage` is the `AUTH_ERROR` signal: no other
analysis failure propagates to the caller. -/
theorem analyzeImage_error_is_auth (u a b : String) (svc : ServiceBehavior)
    (m : String) (h : (analyzeImage u a b svc).result = .error m) :
    m = "AUTH_ERROR" := by
  by_cases hk : resolveApiKey u a b = ""
  · simp only [analyzeImage, if_pos hk] at h
    simp_all
  · simp only [analyzeImage, if_neg hk] at h
    cases svc with
    | fetchError msg => exact classifyCaught_error_is_auth msg m h
    | genError msg => exact classifyCaught_error_is_auth msg m h
    | response t => cases t <;> simp_all

/-- C5 (amended): an analysis request on a present, not-yet-tagged asset
always terminates with the asset's analyzing flag cleared, and exactly one
of these outcomes: the tags are set to the (possibly empty) list produced
by the call — the `["Analysis Failed"]` sentinel included, since the
service converts generic failures into that return value — or the call
failed with the credential signal, the tags remain unset and the
process-wide credential-needed modal is raised; no other failure escapes
the call. -/
theorem handleAnalyze_outcomes (images : List IPFSImage) (targetId : String)
    (u a b : String) (svc : ServiceBehavior) (modal : Bool)
    (htgt : targetId ∈ images.map IPFSImage.id)
    (huntagged : ∀ img ∈ images, img.id = targetId → img.aiTags = none) :
    (∀ m, (analyzeImage u a b svc).result = .error m → m = "AUTH_ERROR") ∧
    (∀ img' ∈ (handleAnalyze images targetId (analyzeImage u a b svc).result modal).1,
      img'.id = targetId →
        img'.analyzing = false ∧
        (∀ ts, (analyzeImage u a b svc).result = .ok ts → img'.aiTags = some ts) ∧
        ((analyzeImage u a b svc).result = .error "AUTH_ERROR" →
          img'.aiTags = none ∧
          (handleAnalyze images targetId (analyzeImage u a b svc).result modal).2 = true)) := by
  refine ⟨fun m h => analyzeImage_error_is_auth u a b svc m h, ?_⟩
  obtain ⟨tgt, htgtMem, htgtId⟩ := List.mem_map.mp htgt
  have hfind : ∃ x, images.find? (fun img => img.id = targetId) = some x := by
    rw [← Option.isSome_iff_exists, List.find?_isSome]
    exact ⟨tgt, htgtMem, by simp [htgtId]⟩
  obtain ⟨fnd, hfnd⟩ := hfind
  intro img' hmem' hid'
  cases hres : (analyzeImage u a b svc).result with
  | ok ts =>
    rw [hres] at hmem'
    simp only [handleAnalyze, hfnd, List.map_map] at hmem'
    obtain ⟨p, hp, hpeq⟩ := List.mem_map.mp hmem'
    by_cases hpid : p.id = targetId
    · refine ⟨?_, ?_, ?_⟩
      · rw [← hpeq]; simp [Function.comp, hpid]
      · intro ts' hts'
        obtain rfl : ts = ts' := by injection hts'
        rw [← hpeq]; simp [Function.comp, hpid]
      · intro habs; simp at habs
    · exfalso
      rw [← hpeq] at hid'
      simp only [Function.comp, if_neg hpid] at hid'
      exact hpid hid'
  | error msg =>
    have hmsg : msg = "AUTH_ERROR" := analyzeImage_error_is_auth u a b svc msg hres
    subst hmsg
    rw [hres] at hmem'
    simp only [handleAnalyze, hfnd, List.map_map] at hmem'
    obtain ⟨p, hp, hpeq⟩ := List.mem_map.mp hmem'
    by_cases hpid : p.id = targetId
    · refine ⟨?_, ?_, fun _ => ⟨?_, ?_⟩⟩
      · rw [← hpeq]; simp [Function.comp, hpid]
      · intro ts' hts'; simp at hts'
      · rw [← hpeq]; simp [Function.comp, hpid, huntagged p hp hpid]
      · simp [handleAnalyze, hfnd]
    · exfalso
      rw [← hpeq] at hid'
      simp only [Function.comp, if_neg hpid] at hid'
      exact hpid hid'

/-- Counterexample for C5 as stated: when the model call returns an empty
text, `analyzeImage` returns `[]` and `handleAnalyze` sets the asset's tags
to the empty list — which is neither a non-empty tag list, nor the unset
tags of a credential failure, nor the single-element failure sentinel. -/
theorem handleAnalyze_empty_tags_counterexample :
    (handleAnalyze [sampleAsset "a"] "a"
        (analyzeImage "key" "" "" (.response none)).result false).1.map IPFSImage.aiTags
      = [some []] ∧
    (handleAnalyze [sampleAsset "a"] "a"
        (analyzeImage "key" "" "" (.response none)).result false).2 = false ∧
    ¬ ((∃ ts : List String, ts ≠ [] ∧
          (handleAnalyze [sampleAsset "a"] "a"
            (analyzeImage "key" "" "" (.response none)).result false).1.map IPFSImage.aiTags
            = [some ts]) ∨
       ((handleAnalyze [sampleAsset "a"] "a"
            (analyzeImage "key" "" "" (.response none)).result false).1.map IPFSImage.aiTags
            = [none] ∧
        (handleAnalyze [sampleAsset "a"] "a"
            (analyzeImage "key" "" "" (.response none)).result false).2 = true) ∨
       (handleAnalyze [sampleAsset "a"] "a"
            (analyzeImage "key" "" "" (.response none)).result false).1.map IPFSImage.aiTags
            = [some ["Analysis Failed"]]) := by
  have hmap : (handleAnalyze [sampleAsset "a"] "a"
      (analyzeImage "key" "" "" (.response none)).result false).1.map IPFSImage.aiTags
      = [some ([] : List String)] := by decide
  have hmodal : (handleAnalyze [sampleAsset "a"] "a"
      (analyzeImage "key" "" "" (.response none)).result false).2 = false := by decide
  refine ⟨hmap, hmodal, ?_⟩
  rintro (⟨ts, hne, hts⟩ | ⟨h1, h2⟩ | h3)
  · rw [hmap] at hts
    simp only [List.cons.injEq, Option.some.injEq, and_true] at hts
    exact hne hts.symm
  · rw [hmap] at h1
    simp at h1
  · rw [hmap] at h3
    simp at h3

/-- Witness for C5 (amended) at a concrete successful analysis returning two
tags. -/
theorem handleAnalyze_outcomes_witness :
    ((handleAnalyze [sampleAsset "a"] "a"
        (analyzeImage "key" "" "" (.response (some ["cat", "dog"]))).result false).1.headD
          (sampleAsset "x")).analyzing = false ∧
    ((handleAnalyze [sampleAsset "a"] "a"
        (analyzeImage "key" "" "" (.response (some ["cat", "dog"]))).result false).1.headD
          (sampleAsset "x")).aiTags = some ["cat", "dog"] := by
  have H := handleAnalyze_outcomes [sampleAsset "a"] "a" "key" "" ""
      (.response (some ["cat", "dog"])) false (by decide) (by decide)
  have H2 := H.2 ((handleAnalyze [sampleAsset "a"] "a"
      (analyzeImage "key" "" "" (.response (some ["cat", "dog"]))).result false).1.headD
        (sampleAsset "x")) (by decide) (by decide)
  exact ⟨H2.1, H2.2.1 ["cat", "dog"] rfl⟩

/-- The export loop over a run of assets whose retrievals all succeed emits
exactly the per-item success blocks and throws nothing. -/
theorem exportLoop_success (fetchRes : IPFSImage → FetchOutcome) (total : Nat)
    (sel : List IPFSImage) :
    ∀ count, (∀ img ∈ sel, fetchRes img = .success) →
      exportLoop fetchRes total sel count = (successEvents total count sel, none) := by
  induction sel with
  | nil => intro count h; rfl
  | cons img rest ih =>
    intro count h
    have himg : fetchRes img = .success := h img (List.mem_cons_self _ _)
    simp only [exportLoop, himg, successEvents]
    rw [ih (count + 1) fun i hi => h i (List.mem_cons_of_mem _ hi)]
    simp

/-- The export loop on a selection whose first failing asset is `bad` emits
the success blocks of the prefix, then `bad`'s marker, progress report and
failed retrieval, aborts without touching `post`, and throws the message
determined by `bad`'s outcome. -/
theorem exportLoop_failure (fetchRes : IPFSImage → FetchOutcome) (total : Nat)
    (pre : List IPFSImage) :
    ∀ (count : Nat) (bad : IPFSImage) (post : List IPFSImage),
      (∀ img ∈ pre, fetchRes img = .success) → fetchRes bad ≠ .success →
      exportLoop fetchRes total (pre ++ bad :: post) count =
        (successEvents total count pre ++
          [ExportEv.markProcessing (some bad.id),
           ExportEv.progress (count + pre.length + 1) total,
           ExportEv.fetchDone bad.id false],
         some (failureMsg (fetchRes bad) bad)) := by
  induction pre with
  | nil =>
    intro count bad post hpre hbad
    cases hb : fetchRes bad with
    | success => exact absurd hb hbad
    | httpError => simp [exportLoop, hb, successEvents, failureMsg]
    | thrown m => simp [exportLoop, hb, successEvents, failureMsg]
  | cons img rest ih =>
    intro count bad post hpre hbad
    have himg : fetchRes img = .success := hpre img (List.mem_cons_self _ _)
    simp only [List.cons_append, exportLoop, himg, successEvents, List.append_eq]
    rw [ih (count + 1) bad post (fun i hi => hpre i (List.mem_cons_of_mem _ hi)) hbad]
    have harith : count + 1 + rest.length + 1 = count + (rest.length + 1) + 1 := by omega
    simp [harith]

/-- The progress reports inside a success block are the consecutive
1-indexed counters paired with the fixed total. -/
theorem successEvents_progress (total : Nat) (sel : List IPFSImage) :
    ∀ count, (successEvents total count sel).filterMap progressOf =
      (List.range' (count + 1) sel.length).map fun c => (c, total) := by
  induction sel with
  | nil => intro count; rfl
  | cons img rest ih =>
    intro count
    simp [successEvents, progressOf, List.range'_succ, ih]

/-- The processing-marker writes inside a success block mark each asset of
the run, in order. -/
theorem successEvents_markers (total : Nat) (sel : List IPFSImage) :
    ∀ count, (successEvents total count sel).filterMap markerOf =
      sel.map fun img => some img.id := by
  induction sel with
  | nil => intro count; rfl
  | cons img rest ih =>
    intro count
    simp [successEvents, markerOf, ih]

/-- The retrievals resolved inside a success block are each asset's, in
order, all successful. -/
theorem successEvents_fetches (total : Nat) (sel : List IPFSImage) :
    ∀ count, (successEvents total count sel).filterMap fetchOf =
      sel.map fun img => (img.id, true) := by
  induction sel with
  | nil => intro count; rfl
  | cons img rest ih =>
    intro count
    simp [successEvents, fetchOf, ih]

/-- With duplicate-free asset ids and a selection drawn from them, the
selection snapshot has exactly one asset per selected id. -/
theorem length_filter_mem_selected (images : List IPFSImage) (S : Finset String)
    (hnodup : (images.map IPFSImage.id).Nodup)
    (hsub : ∀ s ∈ S, s ∈ images.map IPFSImage.id) :
    (images.filter fun img => img.id ∈ S).length = S.card := by
  have h1 : ((images.map IPFSImage.id).filter fun i => i ∈ S) =
      (images.filter fun img => img.id ∈ S).map IPFSImage.id := by
    rw [List.filter_map]
    rfl
  have h2 : ((images.map IPFSImage.id).filter fun i => i ∈ S).Nodup :=
    hnodup.filter _
  have h3 : ((images.map IPFSImage.id).filter fun i => i ∈ S).toFinset = S := by
    ext x
    simp only [List.mem_toFinset, List.mem_filter, decide_eq_true_eq]
    exact ⟨fun h => h.2, fun h => ⟨hsub x h, h⟩⟩
  have h4 := List.toFinset_card_of_nodup h2
  rw [h3] at h4
  rw [h4, h1, List.length_map]

/-- C1: over a non-empty selection of n assets whose retrievals all succeed,
the export runs sequentially: its trace consists of the per-item blocks in
snapshot order — so item k+1's retrieval starts only after item k's outcome
is resolved — the snapshot has exactly n = |selection| assets, the emitted
in-job progress reports are exactly (1,n), …, (n,n) in that order with the
total fixed at n, the processing marker is set to exactly the one current
asset at each step (and cleared at the end), and the resolved retrievals
are each selected asset's, once, in order. -/
theorem export_progress_sequencing (st : AppSt) (fetchRes : IPFSImage → FetchOutcome)
    (hbulk : st.isBulkDownloading = false)
    (hne : st.selectedIds ≠ ∅)
    (hnodup : (st.images.map IPFSImage.id).Nodup)
    (hsub : ∀ s ∈ st.selectedIds, s ∈ st.images.map IPFSImage.id)
    (hok : ∀ img ∈ st.images.filter (fun img => img.id ∈ st.selectedIds),
      fetchRes img = .success) :
    (st.images.filter fun img => img.id ∈ st.selectedIds).length = st.selectedIds.card ∧
    (handleBulkDownload st fetchRes).events =
      ExportEv.progress 0 st.selectedIds.card ::
        (successEvents st.selectedIds.card 0
          (st.images.filter fun img => img.id ∈ st.selectedIds) ++
          [ExportEv.markProcessing none, ExportEv.markProcessing none,
           ExportEv.progress 0 0]) ∧
    ((handleBulkDownload st fetchRes).events.filterMap progressOf).filter
        (fun p => p.1 ≠ 0) =
      (List.range st.selectedIds.card).map (fun k => (k + 1, st.selectedIds.card)) ∧
    (handleBulkDownload st fetchRes).events.filterMap markerOf =
      ((st.images.filter fun img => img.id ∈ st.selectedIds).map
        fun img => some img.id) ++ [none, none] ∧
    (handleBulkDownload st fetchRes).events.filterMap fetchOf =
      (st.images.filter fun img => img.id ∈ st.selectedIds).map
        fun img => (img.id, true) := by
  have hlen := length_filter_mem_selected st.images st.selectedIds hnodup hsub
  have hguard : ¬ (st.selectedIds = ∅ ∨ st.isBulkDownloading = true) := by
    simp [hne, hbulk]
  have hrun := exportLoop_success fetchRes st.selectedIds.card
    (st.images.filter fun img => img.id ∈ st.selectedIds) 0 hok
  have hevents : (handleBulkDownload st fetchRes).events =
      ExportEv.progress 0 st.selectedIds.card ::
        (successEvents st.selectedIds.card 0
          (st.images.filter fun img => img.id ∈ st.selectedIds) ++
          [ExportEv.markProcessing none, ExportEv.markProcessing none,
           ExportEv.progress 0 0]) := by
    simp only [handleBulkDownload, if_neg hguard, hrun, List.cons_append]
  refine ⟨hlen, hevents, ?_, ?_, ?_⟩
  · rw [hevents]
    simp only [List.filterMap_cons, List.filterMap_append, progressOf,
      successEvents_progress]
    rw [hlen]
    simp only [List.filter_cons, List.filter_append]
    norm_num
    rw [List.filter_eq_self.mpr]
    · rw [List.range'_eq_map_range]
      simp only [List.map_map, Function.comp]
      refine List.map_congr_left fun k _ => ?_
      simp [Nat.add_comm]
    · intro p hp
      obtain ⟨c, hc, rfl⟩ := List.mem_map.mp hp
      obtain ⟨i, hi, hc'⟩ := List.mem_range'.mp hc
      have hcne : c ≠ 0 := by omega
      simp [hcne]
  · rw [hevents]
    simp only [List.filterMap_cons, List.filterMap_append, markerOf,
      successEvents_markers]
    rfl
  · rw [hevents]
    simp only [List.filterMap_cons, List.filterMap_append, fetchOf,
      successEvents_fetches, List.filterMap_nil, List.append_nil]

/-- Witness for C1: exporting a selection of 3 assets reports exactly
(1,3), (2,3), (3,3), in order. -/
theorem export_progress_sequencing_witness :
    (((handleBulkDownload
        { images := [sampleAsset "a", sampleAsset "b", sampleAsset "c"],
          selectedIds := {"a", "b", "c"} }
        (fun _ => .success)).events.filterMap progressOf).filter
      fun p => p.1 ≠ 0) = [(1, 3), (2, 3), (3, 3)] := by
  have H := (export_progress_sequencing
      { images := [sampleAsset "a", sampleAsset "b", sampleAsset "c"],
        selectedIds := {"a", "b", "c"} }
      (fun _ => .success) rfl (by decide) (by decide) (by decide)
      (fun img h => rfl)).2.2.1
  rw [H]
  decide

/-- C2 (amended): the export's exit states: when every retrieval succeeds
the selection is cleared, the archive holds the snapshot's entries and no
alert fires; on the first failing retrieval the job aborts immediately (no
retrieval beyond the failing asset is attempted), produces no archive and
leaves the selection exactly as at invocation; the processing marker, the
progress pair and the bulk flag are cleared on every exit path; and the
surfaced alert names the failed asset's display name when the failure is a
non-ok response (a rejected transport surfaces its own message — see the
counterexample for why the claim's unconditional naming fails). -/
theorem export_exit_states (st : AppSt) (fetchRes : IPFSImage → FetchOutcome)
    (hbulk : st.isBulkDownloading = false)
    (hne : st.selectedIds ≠ ∅) :
    ((∀ img ∈ st.images.filter (fun img => img.id ∈ st.selectedIds),
        fetchRes img = .success) →
      (handleBulkDownload st fetchRes).final.selectedIds = ∅ ∧
      (handleBulkDownload st fetchRes).final.processingId = none ∧
      (handleBulkDownload st fetchRes).final.downloadProgress = (0, 0) ∧
      (handleBulkDownload st fetchRes).final.isBulkDownloading = false ∧
      (handleBulkDownload st fetchRes).archive =
        some ((st.images.filter fun img => img.id ∈ st.selectedIds).map
          IPFSImage.filename) ∧
      (handleBulkDownload st fetchRes).alertMsg = none) ∧
    (∀ (pre : List IPFSImage) (bad : IPFSImage) (post : List IPFSImage),
      st.images.filter (fun img => img.id ∈ st.selectedIds) = pre ++ bad :: post →
      (∀ img ∈ pre, fetchRes img = .success) →
      fetchRes bad ≠ .success →
      (handleBulkDownload st fetchRes).archive = none ∧
      (handleBulkDownload st fetchRes).final.selectedIds = st.selectedIds ∧
      (handleBulkDownload st fetchRes).final.processingId = none ∧
      (handleBulkDownload st fetchRes).final.downloadProgress = (0, 0) ∧
      (handleBulkDownload st fetchRes).final.isBulkDownloading = false ∧
      (handleBulkDownload st fetchRes).events.filterMap fetchOf =
        pre.map (fun img => (img.id, true)) ++ [(bad.id, false)] ∧
      (fetchRes bad = .httpError →
        (handleBulkDownload st fetchRes).alertMsg =
          some ("Download failed: Failed to download " ++ bad.filename))) := by
  have hguard : ¬ (st.selectedIds = ∅ ∨ st.isBulkDownloading = true) := by
    simp [hne, hbulk]
  constructor
  · intro hok
    have hrun := exportLoop_success fetchRes st.selectedIds.card
      (st.images.filter fun img => img.id ∈ st.selectedIds) 0 hok
    simp [handleBulkDownload, if_neg hguard, hrun]
  · intro pre bad post hdec hpre hbad
    have hrun := exportLoop_failure fetchRes st.selectedIds.card pre 0 bad post
      hpre hbad
    rw [← hdec] at hrun
    have hout : handleBulkDownload st fetchRes =
        { final := { st with isBulkDownloading := false, processingId := none,
                             downloadProgress := (0, 0) }
          events := ExportEv.progress 0 st.selectedIds.card ::
            (successEvents st.selectedIds.card 0 pre ++
              [ExportEv.markProcessing (some bad.id),
               ExportEv.progress (0 + pre.length + 1) st.selectedIds.card,
               ExportEv.fetchDone bad.id false]) ++
            [ExportEv.markProcessing none, ExportEv.progress 0 0]
          archive := none
          alertMsg := some ("Download failed: " ++ failureMsg (fetchRes bad) bad) } := by
      simp only [handleBulkDownload, if_neg hguard, hrun]
    refine ⟨?_, ?_, ?_, ?_, ?_, ?_, ?_⟩ <;> rw [hout]
    · simp only [List.filterMap_cons, List.filterMap_append, fetchOf,
        successEvents_fetches, List.filterMap_nil, List.append_nil,
        List.cons_append, List.nil_append]
    · intro hhttp
      simp only [failureMsg, hhttp, Option.some.injEq]
      rw [← String.append_assoc]
      have hlit : ("Download failed: " ++ "Failed to download " : String) =
          "Download failed: Failed to download " := by decide
      rw [hlit]

/-- Counterexample for C2 as stated: when a selected asset's retrieval is a
rejected transport call (rather than a non-ok response), the surfaced alert
carries the transport error's own message, which does not identify the
failed asset's display name; the rest of the failure contract (no archive,
selection preserved) still holds at this input. -/
theorem export_thrown_error_lacks_asset_name :
    (handleBulkDownload { images := [sampleAsset "a"], selectedIds := {"a"} }
        (fun _ => .thrown "Failed to fetch")).archive = none ∧
    (handleBulkDownload { images := [sampleAsset "a"], selectedIds := {"a"} }
        (fun _ => .thrown "Failed to fetch")).alertMsg =
      some "Download failed: Failed to fetch" ∧
    containsSub "Download failed: Failed to fetch" (sampleAsset "a").filename = false ∧
    (handleBulkDownload { images := [sampleAsset "a"], selectedIds := {"a"} }
        (fun _ => .thrown "Failed to fetch")).final.selectedIds = {"a"} := by
  refine ⟨by decide, by decide, by decide, ?_⟩
  have H := ((export_exit_states { images := [sampleAsset "a"], selectedIds := {"a"} }
      (fun _ => .thrown "Failed to fetch") rfl (by decide)).2 [] (sampleAsset "a") []
      (by decide) (by decide) (by decide)).2.1
  exact H

/-- Witness for C2 (amended): with the 2nd of 3 selected assets failing on a
non-ok response, no archive is produced, the alert names that asset, all 3
stay selected, and no retrieval after the failing one is attempted. -/
theorem export_exit_states_witness :
    (handleBulkDownload
        { images := [sampleAsset "a", sampleAsset "b", sampleAsset "c"],
          selectedIds := {"a", "b", "c"} }
        (fun img => if img.id = "b" then .httpError else .success)).archive = none ∧
    (handleBulkDownload
        { images := [sampleAsset "a", sampleAsset "b", sampleAsset "c"],
          selectedIds := {"a", "b", "c"} }
        (fun img => if img.id = "b" then .httpError else .success)).final.selectedIds =
      {"a", "b", "c"} ∧
    (handleBulkDownload
        { images := [sampleAsset "a", sampleAsset "b", sampleAsset "c"],
          selectedIds := {"a", "b", "c"} }
        (fun img => if img.id = "b" then .httpError else .success)).alertMsg =
      some ("Download failed: Failed to download " ++ (sampleAsset "b").filename) := by
  have H := (export_exit_states
      { images := [sampleAsset "a", sampleAsset "b", sampleAsset "c"],
        selectedIds := {"a", "b", "c"} }
      (fun img => if img.id = "b" then .httpError else .success) rfl (by decide)).2
      [sampleAsset "a"] (sampleAsset "b") [sampleAsset "c"]
      (by decide) (by decide) (by decide)
  exact ⟨H.1, H.2.1, H.2.2.2.2.2.2 (by decide)⟩

end HogeMeme
